import Mathlib

/-!
# Verification of MuyGPyS kernel hyperparameters and shear covariance builders

Shallow embedding of `MuyGPyS/gp/kernels.py` (Hyperparameter state machine,
KernelFn registry, RBF/Matérn evaluation, kernel factory) and of
`MuyGPyS/_src/gp/kernels/shear/numpy.py` (the three shear covariance
assembly functions), together with theorems settling the specification
claims.

Modelling conventions:
* Python floats used for hyperparameter values/bounds are modelled as `ℚ`
  (the validation logic only compares and subtracts, so the rational model
  is faithful to the branch structure; float rounding is not modelled).
* Kernel evaluation (which uses `exp`, `sqrt`) is modelled over `ℝ`.
* Python exceptions are modelled by `Except PyError`; `ValueError` and
  `KeyError` are distinguished constructors, since `dict` lookup failures
  raise `KeyError` while validation raises `ValueError`.
* `np.random.uniform` and the composite `exp(uniform(log lo, log hi))` are
  modelled as oracles carried in an explicit `Rng` record.
* numpy arrays appearing as hyperparameter values are modelled as `List ℚ`
  of their (flattened) entries; elementwise comparison is `List.any`.
-/

/-- A Python value stored in `Hyperparameter._val`: either a string
(Python `str`) or a numeric scalar/array (flattened entry list). -/
inductive PyVal where
  | str (s : String)
  | num (xs : List ℚ)
  deriving DecidableEq, Repr

/-- The contents of `Hyperparameter._bounds` after `_set_bounds` succeeds:
the string `"fixed"` or a numeric pair. -/
inductive Bounds where
  | fixed
  | pair (lo hi : ℚ)
  deriving DecidableEq, Repr

/-- A value descriptor passed to `_set_val`: a string sentinel or a
numeric scalar/array (already squeezed and cast to float). -/
inductive ValDesc where
  | str (s : String)
  | num (xs : List ℚ)
  deriving DecidableEq, Repr

/-- A bounds descriptor passed to `_set_bounds`: a string or an iterable
of numbers.  (Non-iterable non-numeric descriptors, which `_set_bounds`
also rejects, are not representable in this model.) -/
inductive BoundsDesc where
  | str (s : String)
  | list (xs : List ℚ)
  deriving DecidableEq, Repr

/-- Python exception kinds raised by the embedded code.  `valueError`
carries the formatted message; `keyError` carries the missing key;
`typeError` models an unexpected-keyword-argument failure at call time. -/
inductive PyError where
  | valueError (msg : String)
  | keyError (key : String)
  | typeError (msg : String)
  deriving DecidableEq, Repr

/-- Explicit random source standing for numpy's global RNG:
`uniform lo hi` models `np.random.uniform(low=lo, high=hi)`, and
`expLogUniform lo hi` models the composite
`np.exp(np.random.uniform(low=np.log(lo), high=np.log(hi)))` drawn in the
`"log_sample"` branch. -/
structure Rng where
  uniform : ℚ → ℚ → ℚ
  expLogUniform : ℚ → ℚ → ℚ

/-- The tolerance `1e-5` used by `_set_val`'s range check. -/
def boundsTol : ℚ := 1 / 100000

/-- `Hyperparameter._set_bounds`: accepts the string `"fixed"` or a
length-2 numeric list with `lo <= hi`; rejects everything else with
`ValueError`. -/
def setBounds (bounds : BoundsDesc) : Except PyError Bounds :=
  match bounds with
  | .str s =>
    if s = "fixed" then .ok .fixed
    else .error (.valueError ("Unknown bound option " ++ s ++ "."))
  | .list xs =>
    match xs with
    | [lo, hi] =>
      if lo > hi then
        .error (.valueError ("Lower bound " ++ toString lo ++
          " is not lesser than upper bound " ++ toString hi ++ "."))
      else .ok (.pair lo hi)
    | _ =>
      .error (.valueError
        ("Provided hyperparameter optimization bounds have unsupported length "
          ++ toString xs.length ++ "."))

/-- `Hyperparameter._set_val`: given the current bounds, validate the value
descriptor and produce the value that the code stores in `self._val`.
Mirrors the branch structure of the source: with `"fixed"` bounds only the
`"sample"`/`"log_sample"` sentinels are rejected and anything else
(including arbitrary strings) is stored; with pair bounds the sentinels
draw from the rng, `"learn"` passes through as a string, other strings are
rejected, and numeric values undergo the elementwise tolerance check. -/
def setVal (rng : Rng) (bounds : Bounds) (val : ValDesc) :
    Except PyError PyVal :=
  match bounds with
  | .fixed =>
    match val with
    | .str s =>
      if s = "sample" ∨ s = "log_sample" then
        .error (.valueError
          "Must provide optimization bounds in order to sample a hyperparameter value.")
      else .ok (.str s)
    | .num xs => .ok (.num xs)
  | .pair lo hi =>
    match val with
    | .str s =>
      if s = "sample" then .ok (.num [rng.uniform lo hi])
      else if s = "log_sample" then .ok (.num [rng.expLogUniform lo hi])
      else if s = "learn" then .ok (.str "learn")
      else .error (.valueError
        ("string hyperparameter value " ++ s ++ " is not supported."))
    | .num xs =>
      if xs.any (fun x => x < lo - boundsTol) then
        .error (.valueError ("Hyperparameter value is lesser than the " ++
          "optimization lower bound " ++ toString lo))
      else if xs.any (fun x => x > hi + boundsTol) then
        .error (.valueError ("Hyperparameter value is greater than the " ++
          "optimization upper bound " ++ toString hi))
      else .ok (.num xs)

/-- The state of a `Hyperparameter` object. -/
structure Hyperparameter where
  val : PyVal
  bounds : Bounds
  deriving DecidableEq, Repr

/-- `Hyperparameter.__init__`: set bounds first, then the value. -/
def hpInit (rng : Rng) (val : ValDesc) (bounds : BoundsDesc) :
    Except PyError Hyperparameter :=
  match setBounds bounds with
  | .error e => .error e
  | .ok b =>
    match setVal rng b val with
    | .error e => .error e
    | .ok v => .ok ⟨v, b⟩

/-- `Hyperparameter._set`: update bounds first (if supplied), then the
value (if supplied) against the freshly installed bounds; omitted fields
keep their prior state.  (The Python original mutates in place, so a value
failure after a bounds success leaves the new bounds installed; claims here
only concern successful updates, for which the `Except` model agrees.) -/
def hpSet (rng : Rng) (h : Hyperparameter) (val : Option ValDesc)
    (bounds : Option BoundsDesc) : Except PyError Hyperparameter :=
  match (match bounds with
         | some bd => setBounds bd
         | none => .ok h.bounds) with
  | .error e => .error e
  | .ok b =>
    match (match val with
           | some vd => setVal rng b vd
           | none => .ok h.val) with
    | .error e => .error e
    | .ok v => .ok ⟨v, b⟩

/-- A hyperparameter kwargs dict `{val?, bounds?}`. -/
structure HpDict where
  val : Option ValDesc
  bounds : Option BoundsDesc
  deriving DecidableEq, Repr

/-- `_init_hyperparameter`: fall back to the given defaults for any key
absent from the kwargs dict. -/
def initHyperparameter (rng : Rng) (valDef : ValDesc) (boundsDef : BoundsDesc)
    (kw : HpDict) : Except PyError Hyperparameter :=
  hpInit rng (kw.val.getD valDef) (kw.bounds.getD boundsDef)

/-- The invariant claimed for non-fixed hyperparameters: every stored
numeric entry lies within the tolerance-widened bounds. -/
def inBoundsInv (h : Hyperparameter) : Prop :=
  ∀ lo hi xs, h.bounds = .pair lo hi → h.val = .num xs →
    ∀ x ∈ xs, lo - boundsTol ≤ x ∧ x ≤ hi + boundsTol

instance (h : Hyperparameter) : Decidable (inBoundsInv h) := by
  unfold inBoundsInv
  cases h with
  | mk v b =>
    cases b with
    | fixed =>
      exact .isTrue (by intro lo hi xs hb; simp at hb)
    | pair lo hi =>
      cases v with
      | str s => exact .isTrue (by intro lo hi xs hb hv; simp at hv)
      | num xs =>
        by_cases hall : ∀ x ∈ xs, lo - boundsTol ≤ x ∧ x ≤ hi + boundsTol
        · exact .isTrue (by
            intro lo2 hi2 xs2 hb hv
            simp only [Bounds.pair.injEq] at hb
            simp only [PyVal.num.injEq] at hv
            obtain ⟨h1, h2⟩ := hb
            subst h1; subst h2; subst hv
            exact hall)
        · exact .isFalse (by
            intro hcon
            exact hall (hcon lo hi xs rfl rfl))

/-- The hyperparameter registry of a `KernelFn`: an association list
modelling the insertion-ordered `self.hyperparameters` dict. -/
def HpRegistry : Type := List (String × Hyperparameter)

/-- A bulk-update argument to `set_params`: insertion-ordered kwargs
mapping a parameter name to a `{val?, bounds?}` dict. -/
def HpUpdates : Type := List (String × HpDict)

/-- Replace the entry for `name` in the registry (keys are unchanged),
modelling the in-place mutation `self.hyperparameters[name]._set(...)`. -/
def registryStore (ps : List (String × Hyperparameter)) (name : String)
    (h : Hyperparameter) : List (String × Hyperparameter) :=
  ps.map (fun p => if p.1 = name then (p.1, h) else p)

/-- `KernelFn.set_params`: for each supplied name in order, look the name
up in the registry (a missing name raises `KeyError`, as a Python dict
access does) and apply `_set` with the supplied dict. -/
def setParams (rng : Rng) (ps : List (String × Hyperparameter)) :
    List (String × HpDict) → Except PyError (List (String × Hyperparameter))
  | [] => .ok ps
  | (name, kw) :: rest =>
    match ps.lookup name with
    | none => .error (.keyError name)
    | some h =>
      match hpSet rng h kw.val kw.bounds with
      | .error e => .error e
      | .ok hNew => setParams rng (registryStore ps name hNew) rest

/-- A concrete kernel functor: `RBF` holds a `length_scale` hyperparameter
and a metric tag, `Matern` additionally holds `nu`. -/
inductive KernelFn where
  | rbf (lengthScale : Hyperparameter) (metric : String)
  | matern (nu : Hyperparameter) (lengthScale : Hyperparameter)
      (metric : String)
  deriving DecidableEq, Repr

/-- The kwargs record accepted by `_get_kernel` and forwarded to the chosen
constructor: optional `nu` and `length_scale` hyperparameter dicts and an
optional `metric` tag. -/
structure KernelKwargs where
  nu : Option HpDict
  lengthScale : Option HpDict
  metric : Option String
  deriving DecidableEq, Repr

/-- `RBF.__init__`: one hyperparameter `length_scale` with default value
`1.0` and default bounds `"fixed"`; metric defaults to `"F2"`.  Passing a
`nu` keyword to `RBF(**kwargs)` is a Python call-time `TypeError`
(unexpected keyword argument), modelled here explicitly. -/
def mkRBF (rng : Rng) (kw : KernelKwargs) : Except PyError KernelFn :=
  if kw.nu.isSome then
    .error (.typeError "RBF got an unexpected keyword argument nu")
  else
    match initHyperparameter rng (.num [1]) (.str "fixed")
        (kw.lengthScale.getD ⟨none, none⟩) with
    | .error e => .error e
    | .ok ls => .ok (.rbf ls (kw.metric.getD "F2"))

/-- `Matern.__init__`: hyperparameters `nu` and `length_scale`, each with
default value `1.0` and default bounds `"fixed"`; metric defaults to
`"l2"`. -/
def mkMatern (rng : Rng) (kw : KernelKwargs) : Except PyError KernelFn :=
  match initHyperparameter rng (.num [1]) (.str "fixed")
      (kw.nu.getD ⟨none, none⟩) with
  | .error e => .error e
  | .ok nu =>
    match initHyperparameter rng (.num [1]) (.str "fixed")
        (kw.lengthScale.getD ⟨none, none⟩) with
    | .error e => .error e
    | .ok ls => .ok (.matern nu ls (kw.metric.getD "l2"))

/-- `_get_kernel`: dispatch on the kernel tag, raising `ValueError` naming
the tag for anything other than `"rbf"` and `"matern"`. -/
def getKernel (rng : Rng) (kern : String) (kw : KernelKwargs) :
    Except PyError KernelFn :=
  if kern = "rbf" then mkRBF rng kw
  else if kern = "matern" then mkMatern rng kw
  else .error (.valueError ("Kernel type " ++ kern ++ " is not supported!"))

/-! ## Kernel evaluation (`RBF.__call__`, `Matern.__call__`), over `ℝ`

Distance tensors are modelled as real-valued families over an arbitrary
index type `ι` (one index per tensor entry); all numpy operations
involved are elementwise. -/

/-- `RBF.__call__`: `np.exp(-squared_dists / (2 * length_scale ** 2))`,
elementwise. -/
noncomputable def rbfCall {ι : Type} (lengthScale : ℝ) (d : ι → ℝ) :
    ι → ℝ :=
  fun i => Real.exp (-d i / (2 * lengthScale ^ 2))

/-- The float value of the Matérn smoothness `nu`: a real number or the
IEEE infinity `np.inf`. -/
inductive NuVal where
  | real (x : ℝ)
  | inf

/-- `np.finfo(float).eps`, the double-precision machine epsilon `2⁻⁵²`,
added to exact zeros in the general-`nu` Matérn branch. -/
noncomputable def machineEps : ℝ := 2 ^ (-52 : ℤ)

open Classical in
/-- `Matern.__call__`: after the elementwise rescaling
`dists = dists / length_scale`, branch on `nu`.  The general-`nu` branch
evaluates `(2^(1-nu) / Γ(nu)) * (sqrt(2 nu) * d)^nu * K_nu(sqrt(2 nu) * d)`
after replacing exact zeros of `d` by machine epsilon; the Gamma function
and the modified Bessel function of the second kind are the scipy library
primitives `gamma` and `kv`, taken here as explicit function arguments. -/
noncomputable def maternCall {ι : Type} (gammaFn : ℝ → ℝ)
    (kv : ℝ → ℝ → ℝ) (nu : NuVal) (lengthScale : ℝ) (d : ι → ℝ) :
    ι → ℝ :=
  let ds : ι → ℝ := fun i => d i / lengthScale
  match nu with
  | .real x =>
    if x = 0.5 then fun i => Real.exp (-ds i)
    else if x = 1.5 then fun i =>
      (1 + ds i * Real.sqrt 3) * Real.exp (-(ds i * Real.sqrt 3))
    else if x = 2.5 then fun i =>
      (1 + ds i * Real.sqrt 5 + (ds i * Real.sqrt 5) ^ 2 / 3) *
        Real.exp (-(ds i * Real.sqrt 5))
    else fun i =>
      let k := if ds i = 0 then ds i + machineEps else ds i
      let tmp := Real.sqrt (2 * x) * k
      2 ^ ((1 : ℝ) - x) / gammaFn x * tmp ^ x * kv x tmp
  | .inf => fun i => Real.exp (-(ds i ^ 2) / 2)

/-! ## Shear covariance builders (`MuyGPyS/_src/gp/kernels/shear/numpy.py`)

The difference tensor of shape `(..., n, m, 2)` is modelled as a family
`diffs : β → Fin n → Fin m → Fin 2 → ℝ` over an arbitrary batch index type
`β`; the assembled block tensor of shape `(..., F_row, n, F_col, m)` is a
family `β → Fin fr → Fin n → Fin fc → Fin m → ℝ`.  The imperative slice
assignments `full_m[..., i, :, j, :] = v` are modelled by `writeBlock`,
starting from the all-zero tensor, in source order; the trailing
`np.squeeze` is a pure reshape accounted for separately by the shape-level
model below. -/

/-- `0.25 * ((8 L² - 8 L sum_sq + 2 prod_sq + sum_quad) * E / L⁴)`. -/
noncomputable def kkFn (e sumSq prodSq sumQuad l : ℝ) : ℝ :=
  0.25 * ((8 * l ^ 2 - 8 * l * sumSq + 2 * prodSq + sumQuad) * e / l ^ 4)

/-- `0.25 * ((6 L diff_yx_sq + diff_xy_quad) * E / L⁴)`. -/
noncomputable def kg1Fn (e diffXYQuad diffYXSq l : ℝ) : ℝ :=
  0.25 * ((6 * l * diffYXSq + diffXYQuad) * e / l ^ 4)

/-- `0.5 * prod * (-6 L + sum_sq) * E / L⁴`. -/
noncomputable def kg2Fn (e sumSq prodDiffs l : ℝ) : ℝ :=
  0.5 * prodDiffs * (-6 * l + sumSq) * e / l ^ 4

/-- `0.25 * ((4 L² - 4 L sum_sq - 2 prod_sq + sum_quad) * E / L⁴)`. -/
noncomputable def g1g1Fn (e sumSq sumQuad prodSq l : ℝ) : ℝ :=
  0.25 * ((4 * l ^ 2 - 4 * l * sumSq - 2 * prodSq + sumQuad) * e / l ^ 4)

/-- `0.5 * prod * diff_xy_sq * E / L⁴`. -/
noncomputable def g1g2Fn (e diffXYSq prodDiffs l : ℝ) : ℝ :=
  0.5 * prodDiffs * diffXYSq * e / l ^ 4

/-- `(L² - L sum_sq + prod_sq) * E / L⁴`. -/
noncomputable def g2g2Fn (e sumSq prodSq l : ℝ) : ℝ :=
  (l ^ 2 - l * sumSq + prodSq) * e / l ^ 4

/-- `np.prod(diffs, axis=-1)` at one pair. -/
def prodDiffs (v : Fin 2 → ℝ) : ℝ := v 0 * v 1

/-- `np.sum(diffs**2, axis=-1)` at one pair. -/
def sumSqDiffs (v : Fin 2 → ℝ) : ℝ := v 0 ^ 2 + v 1 ^ 2

/-- `np.prod(diffs**2, axis=-1)` at one pair. -/
def prodSqDiffs (v : Fin 2 → ℝ) : ℝ := v 0 ^ 2 * v 1 ^ 2

/-- `np.sum((diffs**2)**2, axis=-1)` at one pair. -/
def sumQuadDiffs (v : Fin 2 → ℝ) : ℝ := (v 0 ^ 2) ^ 2 + (v 1 ^ 2) ^ 2

/-- `sq_diffs[..., 1] - sq_diffs[..., 0]` at one pair. -/
def diffYXSqDiffs (v : Fin 2 → ℝ) : ℝ := v 1 ^ 2 - v 0 ^ 2

/-- `sq_diffs[..., 0] - sq_diffs[..., 1]` at one pair. -/
def diffXYSqDiffs (v : Fin 2 → ℝ) : ℝ := v 0 ^ 2 - v 1 ^ 2

/-- `quad_diffs[..., 0] - quad_diffs[..., 1]` at one pair. -/
def diffXYQuadDiffs (v : Fin 2 → ℝ) : ℝ := (v 0 ^ 2) ^ 2 - (v 1 ^ 2) ^ 2

/-- `np.exp(-sum_sq_diffs / (2 * length_scale))` at one pair (note that
the length scale enters linearly, not squared). -/
noncomputable def expInvScaled (l : ℝ) (v : Fin 2 → ℝ) : ℝ :=
  Real.exp (-sumSqDiffs v / (2 * l))

/-- The slice assignment `t[..., i, :, j, :] = v`. -/
def writeBlock {β : Type} {n m fr fc : ℕ}
    (t : β → Fin fr → Fin n → Fin fc → Fin m → ℝ) (i : Fin fr) (j : Fin fc)
    (v : β → Fin n → Fin m → ℝ) :
    β → Fin fr → Fin n → Fin fc → Fin m → ℝ :=
  fun b iq p jq q => if iq = i ∧ jq = j then v b p q else t b iq p jq q

/-- `_shear_33_fn` before the final `np.squeeze`: allocate zeros of block
shape `(3, n, 3, m)` and perform the slice assignments in source order,
each symmetric pair of positions receiving the same computed value. -/
noncomputable def shear33 {β : Type} {n m : ℕ}
    (diffs : β → Fin n → Fin m → Fin 2 → ℝ) (l : ℝ) :
    β → Fin 3 → Fin n → Fin 3 → Fin m → ℝ :=
  let e := fun b p q => expInvScaled l (diffs b p q)
  let at2 := fun (f : (Fin 2 → ℝ) → ℝ) (b : β) (p : Fin n) (q : Fin m) =>
    f (diffs b p q)
  let z : β → Fin 3 → Fin n → Fin 3 → Fin m → ℝ := fun _ _ _ _ _ => 0
  let t0 := writeBlock z 0 0 (fun b p q =>
    kkFn (e b p q) (at2 sumSqDiffs b p q) (at2 prodSqDiffs b p q)
      (at2 sumQuadDiffs b p q) l)
  let kg1 := fun b p q =>
    kg1Fn (e b p q) (at2 diffXYQuadDiffs b p q) (at2 diffYXSqDiffs b p q) l
  let t1 := writeBlock (writeBlock t0 0 1 kg1) 1 0 kg1
  let kg2 := fun b p q =>
    kg2Fn (e b p q) (at2 sumSqDiffs b p q) (at2 prodDiffs b p q) l
  let t2 := writeBlock (writeBlock t1 0 2 kg2) 2 0 kg2
  let t3 := writeBlock t2 1 1 (fun b p q =>
    g1g1Fn (e b p q) (at2 sumSqDiffs b p q) (at2 sumQuadDiffs b p q)
      (at2 prodSqDiffs b p q) l)
  let g1g2 := fun b p q =>
    g1g2Fn (e b p q) (at2 diffXYSqDiffs b p q) (at2 prodDiffs b p q) l
  let t4 := writeBlock (writeBlock t3 1 2 g1g2) 2 1 g1g2
  writeBlock t4 2 2 (fun b p q =>
    g2g2Fn (e b p q) (at2 sumSqDiffs b p q) (at2 prodSqDiffs b p q) l)

/-- `_shear_Kin23_fn` before the final `np.squeeze`: the shear-only
`(2, n, 2, m)` assembly. -/
noncomputable def shearKin23 {β : Type} {n m : ℕ}
    (diffs : β → Fin n → Fin m → Fin 2 → ℝ) (l : ℝ) :
    β → Fin 2 → Fin n → Fin 2 → Fin m → ℝ :=
  let e := fun b p q => expInvScaled l (diffs b p q)
  let at2 := fun (f : (Fin 2 → ℝ) → ℝ) (b : β) (p : Fin n) (q : Fin m) =>
    f (diffs b p q)
  let z : β → Fin 2 → Fin n → Fin 2 → Fin m → ℝ := fun _ _ _ _ _ => 0
  let t0 := writeBlock z 0 0 (fun b p q =>
    g1g1Fn (e b p q) (at2 sumSqDiffs b p q) (at2 sumQuadDiffs b p q)
      (at2 prodSqDiffs b p q) l)
  let g1g2 := fun b p q =>
    g1g2Fn (e b p q) (at2 diffXYSqDiffs b p q) (at2 prodDiffs b p q) l
  let t1 := writeBlock (writeBlock t0 0 1 g1g2) 1 0 g1g2
  writeBlock t1 1 1 (fun b p q =>
    g2g2Fn (e b p q) (at2 sumSqDiffs b p q) (at2 prodSqDiffs b p q) l)

/-- `_shear_Kcross23_fn` before the final `np.squeeze`: the asymmetric
`(2, n, 3, m)` cross-covariance assembly; the chained assignment writes
the same `g1g2` value to both `(0, 2)` and `(1, 1)`. -/
noncomputable def shearKcross23 {β : Type} {n m : ℕ}
    (diffs : β → Fin n → Fin m → Fin 2 → ℝ) (l : ℝ) :
    β → Fin 2 → Fin n → Fin 3 → Fin m → ℝ :=
  let e := fun b p q => expInvScaled l (diffs b p q)
  let at2 := fun (f : (Fin 2 → ℝ) → ℝ) (b : β) (p : Fin n) (q : Fin m) =>
    f (diffs b p q)
  let z : β → Fin 2 → Fin n → Fin 3 → Fin m → ℝ := fun _ _ _ _ _ => 0
  let t0 := writeBlock z 0 0 (fun b p q =>
    kg1Fn (e b p q) (at2 diffXYQuadDiffs b p q) (at2 diffYXSqDiffs b p q) l)
  let t1 := writeBlock t0 1 0 (fun b p q =>
    kg2Fn (e b p q) (at2 sumSqDiffs b p q) (at2 prodDiffs b p q) l)
  let t2 := writeBlock t1 0 1 (fun b p q =>
    g1g1Fn (e b p q) (at2 sumSqDiffs b p q) (at2 sumQuadDiffs b p q)
      (at2 prodSqDiffs b p q) l)
  let g1g2 := fun b p q =>
    g1g2Fn (e b p q) (at2 diffXYSqDiffs b p q) (at2 prodDiffs b p q) l
  let t3 := writeBlock (writeBlock t2 0 2 g1g2) 1 1 g1g2
  writeBlock t3 1 2 (fun b p q =>
    g2g2Fn (e b p q) (at2 sumSqDiffs b p q) (at2 prodSqDiffs b p q) l)

/-! ### Shape-level model of the shear builders

Each builder computes `shape = diffs.shape[:-1]`, reads
`n = shape[-2]`, `m = shape[-1]`, `prefix = shape[:-2]`, allocates
`prefix + (fr, n, fc, m)` and returns `np.squeeze` of the result.
`np.squeeze` with no axis argument removes every axis of extent 1. -/

/-- `np.squeeze`: drop all axes of extent 1 from a shape. -/
def squeezeShape (s : List ℕ) : List ℕ := s.filter (fun d => d ≠ 1)

/-- The output shape of an assembly producing block shape
`prefix ++ [fr, n, fc, m]` from input shape `s = prefix ++ [n, m, 2]`,
followed by `np.squeeze`. -/
def shearOutShape (fr fc : ℕ) (s : List ℕ) : List ℕ :=
  let shape := s.dropLast
  let n := shape.getD (shape.length - 2) 0
  let m := shape.getD (shape.length - 1) 0
  let pre := shape.dropLast.dropLast
  squeezeShape (pre ++ [fr, n, fc, m])

/-- Output shape of `_shear_33_fn`. -/
def shear33Shape (s : List ℕ) : List ℕ := shearOutShape 3 3 s

/-- Output shape of `_shear_Kin23_fn`. -/
def shearKin23Shape (s : List ℕ) : List ℕ := shearOutShape 2 2 s

/-- Output shape of `_shear_Kcross23_fn`. -/
def shearKcross23Shape (s : List ℕ) : List ℕ := shearOutShape 2 3 s

/-- A concrete deterministic random source (always returns the lower end
of the requested range), used to instantiate theorems at concrete
inputs. -/
def rng0 : Rng := ⟨fun lo _ => lo, fun lo _ => lo⟩

/-- Whether an `Except` result is an error of any kind. -/
def isError {α : Type} : Except PyError α → Bool
  | .error _ => true
  | .ok _ => false

/-- Whether an `Except` result is specifically a `ValueError`. -/
def isValueError {α : Type} : Except PyError α → Bool
  | .error (.valueError _) => true
  | _ => false

/-! ## Theorems -/

/-- If `setVal` succeeds against pair bounds and stores a numeric value,
the stored entries lie within the tolerance-widened bounds, provided the
rng draws lie within the requested ranges. -/
theorem setVal_stores_in_bounds (rng : Rng)
    (hu : ∀ a b : ℚ, a ≤ b → a ≤ rng.uniform a b ∧ rng.uniform a b ≤ b)
    (hlu : ∀ a b : ℚ, 0 < a → a ≤ b →
      a ≤ rng.expLogUniform a b ∧ rng.expLogUniform a b ≤ b)
    (lo hi : ℚ) (hpos : 0 < lo) (hlohi : lo ≤ hi) (v : ValDesc)
    (val : PyVal) (hok : setVal rng (.pair lo hi) v = .ok val) :
    ∀ xs, val = .num xs →
      ∀ x ∈ xs, lo - boundsTol ≤ x ∧ x ≤ hi + boundsTol := by
  have htol : (0 : ℚ) < boundsTol := by norm_num [boundsTol]
  intro xs hval x hx
  subst hval
  cases v with
  | str s =>
    simp only [setVal] at hok
    by_cases hs : s = "sample"
    · rw [if_pos hs] at hok
      simp only [Except.ok.injEq, PyVal.num.injEq] at hok
      rw [← hok] at hx
      simp only [List.mem_singleton] at hx
      subst hx
      obtain ⟨h1, h2⟩ := hu lo hi hlohi
      constructor
      · linarith
      · linarith
    · rw [if_neg hs] at hok
      by_cases hls : s = "log_sample"
      · rw [if_pos hls] at hok
        simp only [Except.ok.injEq, PyVal.num.injEq] at hok
        rw [← hok] at hx
        simp only [List.mem_singleton] at hx
        subst hx
        obtain ⟨h1, h2⟩ := hlu lo hi hpos hlohi
        constructor
        · linarith
        · linarith
      · rw [if_neg hls] at hok
        by_cases hlrn : s = "learn"
        · rw [if_pos hlrn] at hok
          simp at hok
        · rw [if_neg hlrn] at hok
          simp at hok
  | num ys =>
    simp only [setVal] at hok
    by_cases hbelow : ys.any (fun y => y < lo - boundsTol)
    · rw [if_pos hbelow] at hok
      simp at hok
    · rw [if_neg hbelow] at hok
      by_cases habove : ys.any (fun y => y > hi + boundsTol)
      · rw [if_pos habove] at hok
        simp at hok
      · rw [if_neg habove] at hok
        simp only [Except.ok.injEq, PyVal.num.injEq] at hok
        subst hok
        simp only [List.any_eq_true, decide_eq_true_eq, not_exists,
          not_and, not_lt] at hbelow habove
        exact ⟨hbelow x hx, habove x hx⟩

/-- C1 (amended): for every Hyperparameter whose bounds are not Fixed,
after every successful construct, and after every successful update that
supplies a value descriptor, if the stored value is numeric then it
satisfies `low - 1e-5 <= value <= high + 1e-5` elementwise against the
bounds current at that moment (assuming the random draws for the
`"sample"`/`"log_sample"` sentinels land in their requested ranges and the
lower bound is positive).  An update that supplies only a bounds
descriptor does not re-validate the stored value, so the original claim
fails there (see the counterexample). -/
theorem hp_value_update_respects_bounds (rng : Rng)
    (hu : ∀ a b : ℚ, a ≤ b → a ≤ rng.uniform a b ∧ rng.uniform a b ≤ b)
    (hlu : ∀ a b : ℚ, 0 < a → a ≤ b →
      a ≤ rng.expLogUniform a b ∧ rng.expLogUniform a b ≤ b)
    (lo hi : ℚ) (hpos : 0 < lo) (hlohi : lo ≤ hi) :
    (∀ (h : Hyperparameter) (v : ValDesc) (bd : Option BoundsDesc)
        (hNew : Hyperparameter),
      hpSet rng h (some v) bd = .ok hNew → hNew.bounds = .pair lo hi →
      inBoundsInv hNew) ∧
    (∀ (v : ValDesc) (bd : BoundsDesc) (hNew : Hyperparameter),
      hpInit rng v bd = .ok hNew → hNew.bounds = .pair lo hi →
      inBoundsInv hNew) := by
  have key : ∀ (b : Bounds) (v : ValDesc) (pv : PyVal),
      setVal rng b v = .ok pv → b = .pair lo hi →
      inBoundsInv ⟨pv, b⟩ := by
    intro b v pv hok hb
    subst hb
    intro lo2 hi2 xs hb2 hv2
    simp only [Bounds.pair.injEq] at hb2
    obtain ⟨h1, h2⟩ := hb2
    subst h1; subst h2
    simp only at hv2
    exact setVal_stores_in_bounds rng hu hlu lo hi hpos hlohi v pv hok xs hv2
  constructor
  · intro h v bd hNew hok hb
    simp only [hpSet] at hok
    cases hbr : (match bd with
                 | some bdd => setBounds bdd
                 | none => .ok h.bounds) with
    | error e => rw [hbr] at hok; simp at hok
    | ok b =>
      rw [hbr] at hok
      cases hvr : setVal rng b v with
      | error e => simp only [hvr] at hok; simp at hok
      | ok pv =>
        simp only [hvr, Except.ok.injEq] at hok
        subst hok
        simp only at hb
        exact key b v pv hvr hb
  · intro v bd hNew hok hb
    simp only [hpInit] at hok
    cases hbr : setBounds bd with
    | error e => rw [hbr] at hok; simp at hok
    | ok b =>
      rw [hbr] at hok
      cases hvr : setVal rng b v with
      | error e => simp only [hvr] at hok; simp at hok
      | ok pv =>
        simp only [hvr, Except.ok.injEq] at hok
        subst hok
        simp only at hb
        exact key b v pv hvr hb

/-- Witness for C1 (amended): a concrete successful value-and-bounds
update whose stored value the theorem places inside the widened bounds. -/
theorem hp_value_update_respects_bounds_witness :
    hpSet rng0 ⟨.num [1], .fixed⟩ (some (.num [2])) (some (.list [1, 3])) =
      .ok ⟨.num [2], .pair 1 3⟩ ∧
    inBoundsInv ⟨.num [2], .pair 1 3⟩ := by
  have hset : hpSet rng0 ⟨.num [1], .fixed⟩ (some (.num [2]))
      (some (.list [1, 3])) = .ok ⟨.num [2], .pair 1 3⟩ := by
    norm_num [hpSet, setBounds, setVal, boundsTol]
  refine ⟨hset, ?_⟩
  exact (hp_value_update_respects_bounds rng0
    (fun a b hab => ⟨le_refl a, hab⟩)
    (fun a b _ hab => ⟨le_refl a, hab⟩)
    1 3 one_pos (by norm_num)).1
    ⟨.num [1], .fixed⟩ (.num [2]) (some (.list [1, 3]))
    ⟨.num [2], .pair 1 3⟩ hset rfl

/-- Counterexample to C1 as stated: a successful update that supplies only
a new bounds descriptor installs the new bounds without re-validating the
stored value, leaving a value (5) above the new upper bound (1) by more
than the 1e-5 tolerance. -/
theorem hp_bounds_only_update_breaks_invariant :
    hpInit rng0 (.num [5]) (.list [0, 10]) = .ok ⟨.num [5], .pair 0 10⟩ ∧
    hpSet rng0 ⟨.num [5], .pair 0 10⟩ none (some (.list [0, 1])) =
      .ok ⟨.num [5], .pair 0 1⟩ ∧
    ¬ inBoundsInv ⟨.num [5], .pair 0 1⟩ := by
  refine ⟨?_, ?_, ?_⟩
  · norm_num [hpInit, setBounds, setVal, boundsTol]
  · norm_num [hpSet, setBounds, setVal, boundsTol]
  · intro hcon
    have := (hcon 0 1 [5] rfl rfl 5 (by simp)).2
    norm_num [boundsTol] at this

/-- C3: evaluation of the code at the failing inputs.  With `"fixed"`
bounds, `_set_val` only rejects the `"sample"`/`"log_sample"` sentinels:
the arbitrary string `"foo"` and the `"learn"` sentinel are silently
stored as the hyperparameter value, contradicting the claim (and the
method's own docstring) that any other string raises an error and that
the stored value is never a sentinel string. -/
theorem hp_fixed_accepts_arbitrary_string :
    hpInit rng0 (.str "foo") (.str "fixed") = .ok ⟨.str "foo", .fixed⟩ ∧
    hpInit rng0 (.str "learn") (.str "fixed") =
      .ok ⟨.str "learn", .fixed⟩ ∧
    hpInit rng0 (.str "learn") (.list [1, 2]) =
      .ok ⟨.str "learn", .pair 1 2⟩ := by
  refine ⟨?_, ?_, ?_⟩
  · simp [hpInit, setBounds, setVal]
  · simp [hpInit, setBounds, setVal]
  · have hb : setBounds (.list [1, 2]) = .ok (.pair 1 2) := by
      norm_num [setBounds]
    simp [hpInit, hb, setVal]

/-- `registryStore` never changes the key set: a name absent before the
store is absent after it. -/
theorem registryStore_lookup_none (ps : List (String × Hyperparameter))
    (nm name : String) (h : Hyperparameter)
    (hnone : ps.lookup name = none) :
    (registryStore ps nm h).lookup name = none := by
  induction ps with
  | nil => simp [registryStore]
  | cons p rest ih =>
    obtain ⟨k, hp⟩ := p
    rw [List.lookup_cons] at hnone
    cases hbeq : (name == k) with
    | true => rw [hbeq] at hnone; simp at hnone
    | false =>
      rw [hbeq] at hnone
      have hrest := ih hnone
      by_cases hk : k = nm
      · simp only [registryStore, List.map_cons, List.lookup_cons, hbeq,
          if_pos hk] at hrest ⊢
        exact hrest
      · simp only [registryStore, List.map_cons, List.lookup_cons, hbeq,
          if_neg hk] at hrest ⊢
        exact hrest

/-- C2 (amended): a bulk update containing a name that is not among the
kernel's parameter names always causes `set_params` to fail — but the
failure raised when the unknown name is reached is a `KeyError` from the
dict lookup, not the `ValueError` kind used for validation failures (see
the counterexample). -/
theorem set_params_unknown_name_fails (rng : Rng) :
    ∀ (updates : List (String × HpDict))
      (ps : List (String × Hyperparameter)) (name : String) (kw : HpDict),
      (name, kw) ∈ updates → ps.lookup name = none →
      isError (setParams rng ps updates) = true := by
  intro updates
  induction updates with
  | nil =>
    intro ps name kw hmem
    simp at hmem
  | cons u rest ih =>
    intro ps name kw hmem hnone
    obtain ⟨uname, ukw⟩ := u
    simp only [List.mem_cons] at hmem
    rcases hmem with heq | hmem
    · have h1 : name = uname := congrArg Prod.fst heq
      subst h1
      have hred : setParams rng ps ((name, ukw) :: rest) =
          .error (.keyError name) := by
        simp only [setParams, hnone]
      rw [hred]; rfl
    · cases hl : ps.lookup uname with
      | none =>
        have hred : setParams rng ps ((uname, ukw) :: rest) =
            .error (.keyError uname) := by
          simp only [setParams, hl]
        rw [hred]; rfl
      | some h =>
        have hred : setParams rng ps ((uname, ukw) :: rest) =
            match hpSet rng h ukw.val ukw.bounds with
            | .error e => .error e
            | .ok hNew => setParams rng (registryStore ps uname hNew) rest := by
          simp only [setParams, hl]
        rw [hred]
        cases hs : hpSet rng h ukw.val ukw.bounds with
        | error e => rfl
        | ok hNew =>
          exact ih (registryStore ps uname hNew) name kw hmem
            (registryStore_lookup_none ps uname name hNew hnone)

/-- Witness for C2 (amended): bulk-updating an RBF-style registry (whose
only parameter is `length_scale`) with the unknown name `"nu"` fails. -/
theorem set_params_unknown_name_fails_witness :
    ("nu", (⟨none, none⟩ : HpDict)) ∈
      [("nu", (⟨none, none⟩ : HpDict))] ∧
    ([("length_scale", (⟨.num [1], .fixed⟩ : Hyperparameter))].lookup "nu"
      = none) ∧
    isError (setParams rng0
      [("length_scale", (⟨.num [1], .fixed⟩ : Hyperparameter))]
      [("nu", (⟨none, none⟩ : HpDict))]) = true := by
  refine ⟨by simp, by simp [List.lookup], ?_⟩
  exact set_params_unknown_name_fails rng0
    [("nu", (⟨none, none⟩ : HpDict))]
    [("length_scale", (⟨.num [1], .fixed⟩ : Hyperparameter))]
    "nu" ⟨none, none⟩ (by simp) (by simp [List.lookup])

/-- Counterexample to C2 as stated: at a concrete RBF-style registry, the
failure on the unknown name `"nu"` is a `KeyError`, not the `ValueError`
kind (`ConfigurationError`) used for all other validation failures. -/
theorem set_params_unknown_name_keyerror_not_valueerror :
    setParams rng0
      [("length_scale", (⟨.num [1], .fixed⟩ : Hyperparameter))]
      [("nu", (⟨none, none⟩ : HpDict))] = .error (.keyError "nu") ∧
    isValueError (setParams rng0
      [("length_scale", (⟨.num [1], .fixed⟩ : Hyperparameter))]
      [("nu", (⟨none, none⟩ : HpDict))]) = false := by
  have h : setParams rng0
      [("length_scale", (⟨.num [1], .fixed⟩ : Hyperparameter))]
      [("nu", (⟨none, none⟩ : HpDict))] = .error (.keyError "nu") := by
    simp [setParams, List.lookup]
  exact ⟨h, by rw [h]; rfl⟩

/-- C9: the kernel factory returns an RBF instance for the tag `"rbf"`,
a Matérn instance for `"matern"`, and for every other tag fails with the
`ValueError` (the code's single validation error kind) whose message names
the unsupported tag. -/
theorem get_kernel_dispatch (rng : Rng) (kw : KernelKwargs) (kern : String) :
    (∀ k, getKernel rng "rbf" kw = .ok k →
      ∃ ls metric, k = .rbf ls metric) ∧
    (∀ k, getKernel rng "matern" kw = .ok k →
      ∃ nu ls metric, k = .matern nu ls metric) ∧
    (kern ≠ "rbf" → kern ≠ "matern" →
      getKernel rng kern kw = .error (.valueError
        ("Kernel type " ++ kern ++ " is not supported!"))) := by
  refine ⟨?_, ?_, ?_⟩
  · intro k hok
    simp only [getKernel, if_pos rfl, ite_true, mkRBF] at hok
    by_cases hnu : kw.nu.isSome = true
    · rw [if_pos hnu] at hok
      simp at hok
    · rw [if_neg hnu] at hok
      cases hi : initHyperparameter rng (.num [1]) (.str "fixed")
          (kw.lengthScale.getD ⟨none, none⟩) with
      | error e => rw [hi] at hok; simp at hok
      | ok ls =>
        rw [hi] at hok
        simp only [Except.ok.injEq] at hok
        exact ⟨ls, kw.metric.getD "F2", hok.symm⟩
  · intro k hok
    have hne : ("matern" : String) ≠ "rbf" := by decide
    simp only [getKernel, if_neg hne, if_pos rfl, ite_true, mkMatern] at hok
    cases hnu : initHyperparameter rng (.num [1]) (.str "fixed")
        (kw.nu.getD ⟨none, none⟩) with
    | error e => rw [hnu] at hok; simp at hok
    | ok nu =>
      rw [hnu] at hok
      cases hls : initHyperparameter rng (.num [1]) (.str "fixed")
          (kw.lengthScale.getD ⟨none, none⟩) with
      | error e => rw [hls] at hok; simp at hok
      | ok ls =>
        rw [hls] at hok
        simp only [Except.ok.injEq] at hok
        exact ⟨nu, ls, kw.metric.getD "l2", hok.symm⟩
  · intro h1 h2
    simp only [getKernel, if_neg h1, if_neg h2]

/-- Witness for C9: at concrete inputs, `"rbf"` yields an RBF instance
with the default hyperparameter state and `"foo"` fails with a
`ValueError` naming `"foo"`. -/
theorem get_kernel_dispatch_witness :
    getKernel rng0 "rbf" ⟨none, none, none⟩ =
      .ok (.rbf ⟨.num [1], .fixed⟩ "F2") ∧
    (∃ ls metric,
      (KernelFn.rbf ⟨.num [1], .fixed⟩ "F2" : KernelFn) = .rbf ls metric) ∧
    getKernel rng0 "foo" ⟨none, none, none⟩ =
      .error (.valueError ("Kernel type " ++ "foo" ++ " is not supported!")) := by
  have hok : getKernel rng0 "rbf" ⟨none, none, none⟩ =
      .ok (.rbf ⟨.num [1], .fixed⟩ "F2") := by
    simp [getKernel, mkRBF, initHyperparameter, hpInit, setBounds, setVal]
  refine ⟨hok, ?_, ?_⟩
  · exact (get_kernel_dispatch rng0 ⟨none, none, none⟩ "foo").1 _ hok
  · exact (get_kernel_dispatch rng0 ⟨none, none, none⟩ "foo").2.2
      (by decide) (by decide)

/-- C7: RBF evaluation computes `exp(-d / (2 length_scale²))` entrywise;
at `d = 0` the value is exactly 1, and for `d >= 0` (with a positive
length scale) the value lies in `(0, 1]`. -/
theorem rbf_call_spec {ι : Type} (lengthScale : ℝ) (hls : 0 < lengthScale)
    (d : ι → ℝ) (hd : ∀ i, 0 ≤ d i) (i : ι) :
    rbfCall lengthScale d i = Real.exp (-d i / (2 * lengthScale ^ 2)) ∧
    (d i = 0 → rbfCall lengthScale d i = 1) ∧
    0 < rbfCall lengthScale d i ∧ rbfCall lengthScale d i ≤ 1 := by
  refine ⟨rfl, ?_, Real.exp_pos _, ?_⟩
  · intro h0
    simp [rbfCall, h0]
  · have hexp : -d i / (2 * lengthScale ^ 2) ≤ 0 := by
      apply div_nonpos_of_nonpos_of_nonneg
      · linarith [hd i]
      · positivity
    calc rbfCall lengthScale d i
        = Real.exp (-d i / (2 * lengthScale ^ 2)) := rfl
      _ ≤ Real.exp 0 := Real.exp_le_exp.mpr hexp
      _ = 1 := Real.exp_zero

/-- Witness for C7 at `length_scale = 1` and the all-zero distance
tensor. -/
theorem rbf_call_spec_witness :
    rbfCall (1 : ℝ) (fun _ : Fin 1 => 0) 0 =
      Real.exp (-(0 : ℝ) / (2 * 1 ^ 2)) ∧
    ((0 : ℝ) = 0 → rbfCall (1 : ℝ) (fun _ : Fin 1 => 0) 0 = 1) ∧
    0 < rbfCall (1 : ℝ) (fun _ : Fin 1 => 0) 0 ∧
    rbfCall (1 : ℝ) (fun _ : Fin 1 => 0) 0 ≤ 1 :=
  rbf_call_spec 1 one_pos (fun _ => 0) (fun _ => le_refl 0) 0

/-- C8: the four special Matérn branches compute the claimed closed
forms after the elementwise rescaling `d' = d / length_scale`:
`exp(-d')` at `nu = 0.5`, `(1+u) exp(-u)` with `u = d' sqrt 3` at
`nu = 1.5`, `(1 + u + u²/3) exp(-u)` with `u = d' sqrt 5` at `nu = 2.5`,
and `exp(-d'²/2)` at `nu = inf`. -/
theorem matern_call_branches {ι : Type} (gammaFn : ℝ → ℝ)
    (kv : ℝ → ℝ → ℝ) (lengthScale : ℝ) (d : ι → ℝ)
    (hd : ∀ i, 0 ≤ d i) (i : ι) :
    maternCall gammaFn kv (.real 0.5) lengthScale d i =
      Real.exp (-(d i / lengthScale)) ∧
    maternCall gammaFn kv (.real 1.5) lengthScale d i =
      (1 + d i / lengthScale * Real.sqrt 3) *
        Real.exp (-(d i / lengthScale * Real.sqrt 3)) ∧
    maternCall gammaFn kv (.real 2.5) lengthScale d i =
      (1 + d i / lengthScale * Real.sqrt 5 +
          (d i / lengthScale * Real.sqrt 5) ^ 2 / 3) *
        Real.exp (-(d i / lengthScale * Real.sqrt 5)) ∧
    maternCall gammaFn kv .inf lengthScale d i =
      Real.exp (-(d i / lengthScale) ^ 2 / 2) := by
  refine ⟨?_, ?_, ?_, ?_⟩
  · simp only [maternCall, if_pos rfl, ite_true]
  · have h1 : (1.5 : ℝ) ≠ 0.5 := by norm_num
    simp only [maternCall, if_neg h1, if_pos rfl, ite_true]
  · have h1 : (2.5 : ℝ) ≠ 0.5 := by norm_num
    have h2 : (2.5 : ℝ) ≠ 1.5 := by norm_num
    simp only [maternCall, if_neg h1, if_neg h2, if_pos rfl, ite_true]
  · simp only [maternCall]

/-- Witness for C8 at `length_scale = 1` and the all-zero distance
tensor. -/
theorem matern_call_branches_witness :
    maternCall (fun x => x) (fun _ x => x) (.real 0.5) (1 : ℝ)
        (fun _ : Fin 1 => 0) 0 = Real.exp (-((0 : ℝ) / 1)) ∧
    maternCall (fun x => x) (fun _ x => x) (.real 1.5) (1 : ℝ)
        (fun _ : Fin 1 => 0) 0 =
      (1 + (0 : ℝ) / 1 * Real.sqrt 3) *
        Real.exp (-((0 : ℝ) / 1 * Real.sqrt 3)) ∧
    maternCall (fun x => x) (fun _ x => x) (.real 2.5) (1 : ℝ)
        (fun _ : Fin 1 => 0) 0 =
      (1 + (0 : ℝ) / 1 * Real.sqrt 5 +
          ((0 : ℝ) / 1 * Real.sqrt 5) ^ 2 / 3) *
        Real.exp (-((0 : ℝ) / 1 * Real.sqrt 5)) ∧
    maternCall (fun x => x) (fun _ x => x) .inf (1 : ℝ)
        (fun _ : Fin 1 => 0) 0 = Real.exp (-((0 : ℝ) / 1) ^ 2 / 2) :=
  matern_call_branches (fun x => x) (fun _ x => x) 1 (fun _ => 0)
    (fun _ => le_refl 0) 0

/-- C6: the assembled full `(3, n, 3, m)` field covariance is
block-symmetric: the entry at block `(i, j)`, position `(p, q)` equals the
entry at block `(j, i)`, position `(p, q)`, because each off-diagonal
value is written to both positions. -/
theorem shear33_block_symmetric {β : Type} {n m : ℕ}
    (diffs : β → Fin n → Fin m → Fin 2 → ℝ) (l : ℝ) (b : β)
    (i j : Fin 3) (p : Fin n) (q : Fin m) :
    shear33 diffs l b i p j q = shear33 diffs l b j p i q := by
  fin_cases i <;> fin_cases j <;> simp [shear33, writeBlock]

/-- C5: the cross-covariance `(2, n, 3, m)` assembly places exactly the
six elementary kernels at the literal positions `(0,0)=KG1`, `(1,0)=KG2`,
`(0,1)=G1G1`, `(0,2)=(1,1)=G1G2` (the same computed value at both
positions) and `(1,2)=G2G2`, each evaluated on the per-pair scalars of
the input difference. -/
theorem shear_cross23_layout {β : Type} {n m : ℕ}
    (diffs : β → Fin n → Fin m → Fin 2 → ℝ) (l : ℝ) (b : β)
    (p : Fin n) (q : Fin m) :
    shearKcross23 diffs l b 0 p 0 q =
      kg1Fn (expInvScaled l (diffs b p q)) (diffXYQuadDiffs (diffs b p q))
        (diffYXSqDiffs (diffs b p q)) l ∧
    shearKcross23 diffs l b 1 p 0 q =
      kg2Fn (expInvScaled l (diffs b p q)) (sumSqDiffs (diffs b p q))
        (prodDiffs (diffs b p q)) l ∧
    shearKcross23 diffs l b 0 p 1 q =
      g1g1Fn (expInvScaled l (diffs b p q)) (sumSqDiffs (diffs b p q))
        (sumQuadDiffs (diffs b p q)) (prodSqDiffs (diffs b p q)) l ∧
    shearKcross23 diffs l b 0 p 2 q =
      g1g2Fn (expInvScaled l (diffs b p q)) (diffXYSqDiffs (diffs b p q))
        (prodDiffs (diffs b p q)) l ∧
    shearKcross23 diffs l b 1 p 1 q =
      g1g2Fn (expInvScaled l (diffs b p q)) (diffXYSqDiffs (diffs b p q))
        (prodDiffs (diffs b p q)) l ∧
    shearKcross23 diffs l b 1 p 2 q =
      g2g2Fn (expInvScaled l (diffs b p q)) (sumSqDiffs (diffs b p q))
        (prodSqDiffs (diffs b p q)) l := by
  refine ⟨?_, ?_, ?_, ?_, ?_, ?_⟩ <;> simp [shearKcross23, writeBlock]

/-- C10: every entry of the shear-only `(2, n, 2, m)` assembly equals the
entry of the full `(3, n, 3, m)` assembly with both fiber indices shifted
up by one, comparing the assembled tensors before squeezing. -/
theorem shear_kin23_refines_shear33 {β : Type} {n m : ℕ}
    (diffs : β → Fin n → Fin m → Fin 2 → ℝ) (l : ℝ) (b : β)
    (i j : Fin 2) (p : Fin n) (q : Fin m) :
    shearKin23 diffs l b i p j q = shear33 diffs l b i.succ p j.succ q := by
  fin_cases i <;> fin_cases j <;>
    simp [shearKin23, shear33, writeBlock, Fin.succ]

/-- C4 (amended): for a difference tensor of shape `(B, n, m, 2)` with
`B`, `n`, `m` all different from 1, the full variant returns shape
`(B, 3, n, 3, m)`, the shear-only variant `(B, 2, n, 2, m)` and the cross
variant `(B, 2, n, 3, m)`; for shape `(n, m, 2)` with `n`, `m` different
from 1 the results keep shapes `(3, n, 3, m)`, `(2, n, 2, m)` and
`(2, n, 3, m)`.  Because the final `np.squeeze` removes every axis of
extent 1 — not only the leading batch axis — the original claim fails
whenever `B`, `n` or `m` equals 1 (see the counterexample). -/
theorem shear_shapes_contract (bb n m : ℕ) (hB : bb ≠ 1) (hn : n ≠ 1)
    (hm : m ≠ 1) :
    shear33Shape [bb, n, m, 2] = [bb, 3, n, 3, m] ∧
    shearKin23Shape [bb, n, m, 2] = [bb, 2, n, 2, m] ∧
    shearKcross23Shape [bb, n, m, 2] = [bb, 2, n, 3, m] ∧
    shear33Shape [n, m, 2] = [3, n, 3, m] ∧
    shearKin23Shape [n, m, 2] = [2, n, 2, m] ∧
    shearKcross23Shape [n, m, 2] = [2, n, 3, m] := by
  refine ⟨?_, ?_, ?_, ?_, ?_, ?_⟩ <;>
    simp [shear33Shape, shearKin23Shape, shearKcross23Shape, shearOutShape,
      squeezeShape, List.filter, hB, hn, hm]

/-- Witness for C4 (amended) at `B = n = m = 2`. -/
theorem shear_shapes_contract_witness :
    shear33Shape [2, 2, 2, 2] = [2, 3, 2, 3, 2] ∧
    shearKin23Shape [2, 2, 2, 2] = [2, 2, 2, 2, 2] ∧
    shearKcross23Shape [2, 2, 2, 2] = [2, 2, 2, 3, 2] ∧
    shear33Shape [2, 2, 2] = [3, 2, 3, 2] ∧
    shearKin23Shape [2, 2, 2] = [2, 2, 2, 2] ∧
    shearKcross23Shape [2, 2, 2] = [2, 2, 3, 2] :=
  shear_shapes_contract 2 2 2 (by decide) (by decide) (by decide)

/-- Counterexample to C4 as stated: with a singleton batch axis
(`B = 1`, `n = m = 2`) the full variant returns shape `(3, 2, 3, 2)`
rather than the claimed `(1, 3, 2, 3, 2)`, because `np.squeeze` removes
the extent-1 batch axis even when the input carries an explicit batch
dimension; likewise a singleton `n` is squeezed away in the batchless
case. -/
theorem shear_shapes_squeeze_counterexample :
    shear33Shape [1, 2, 2, 2] = [3, 2, 3, 2] ∧
    shear33Shape [1, 2, 2, 2] ≠ [1, 3, 2, 3, 2] ∧
    shear33Shape [1, 2, 2] = [3, 3, 2] ∧
    shear33Shape [1, 2, 2] ≠ [3, 1, 3, 2] := by decide
